import Mathlib

/-!
Shallow embedding of the graph-authoring core of the FlowZmith whiteboard
(`src/WorkflowWhiteboard.jsx`): the node/edge data model, the mutation
handlers (`handleDelete`, `handleDuplicate`, `onConnect`, `onDrop`, the
delete-key effect), and the persistence handlers (`handleSave`,
`handleLoad`, `handleClear`).  React's two `useState` cells for nodes and
edges are modelled as a `FlowState` record; the module-level
`nodeIdCounter` is threaded explicitly.  Purely presentational fields
(icons, CSS classes, edge stroke styling from `edgeOptions`, animation
flags) are omitted: they carry no graph semantics.
-/

/-- Canvas coordinates.  The source stores JavaScript numbers; the claims
only concern exact copies and the fixed +50 duplication offset, so an exact
integer model suffices. -/
structure Position where
  x : Int
  y : Int
deriving DecidableEq, Repr

/-- One entry of a node's open `config` object.  The source stores string
values (`network: 'ethereum'`) and string-array values
(`params: ['owner','totalSupply']`); the core treats the bag as opaque. -/
inductive ConfigVal where
  | str : String → ConfigVal
  | strs : List String → ConfigVal
deriving DecidableEq, Repr

/-- The `data` object of a whiteboard node: `label`, block `type`,
`description`, `status` and the opaque `config` bag. -/
structure NodeData where
  label : String
  type : String
  description : String
  status : String
  config : List (String × ConfigVal)
deriving DecidableEq, Repr

/-- A whiteboard node as built by the source: `id`, React Flow `type`
(always `customNode` here), canvas `position` and the `data` payload. -/
structure Node where
  id : String
  type : String
  position : Position
  data : NodeData
deriving DecidableEq, Repr

/-- A whiteboard edge.  `onConnect` spreads the React Flow connection
object, so the edge keeps its `source`, `target`, `sourceHandle` and
`targetHandle` (the latter two are `null` in this app because the custom
node's handles carry no ids); `none` models `null` and, for `source` and
`target`, the empty string doubles for JavaScript-falsy values.  The
styling fields added by `edgeOptions` are presentational and omitted. -/
structure Edge where
  id : String
  source : String
  target : String
  sourceHandle : Option String
  targetHandle : Option String
deriving DecidableEq, Repr

/-- A React Flow connection payload passed to `onConnect`. -/
structure Connection where
  source : String
  target : String
  sourceHandle : Option String
  targetHandle : Option String
deriving DecidableEq, Repr

/-- The two React state cells of the `Flow` component: the node list and
the edge list. -/
structure FlowState where
  nodes : List Node
  edges : List Edge
deriving DecidableEq, Repr

/-- JavaScript falsiness of a nullable handle string: `null` and `""`. -/
def optFalsy (o : Option String) : Bool :=
  o == none || o == some ""

/-- `connectionExists` from the `reactflow` library (v11 `addEdge`
helper): an edge duplicates an existing one when source, target and both
handles match, where two falsy handles also count as matching. -/
def connectionExists (edge : Edge) (edges : List Edge) : Bool :=
  edges.any fun el =>
    el.source == edge.source && el.target == edge.target &&
      (el.sourceHandle == edge.sourceHandle ||
        (optFalsy el.sourceHandle && optFalsy edge.sourceHandle)) &&
      (el.targetHandle == edge.targetHandle ||
        (optFalsy el.targetHandle && optFalsy edge.targetHandle))

/-- `addEdge` from the `reactflow` library: returns the list unchanged
when the edge's source or target is falsy or a matching connection already
exists, otherwise appends the edge.  The `isEdge` branch applies because
the caller always supplies an `id`. -/
def addEdge (edgeParams : Edge) (edges : List Edge) : List Edge :=
  if edgeParams.source == "" || edgeParams.target == "" then edges
  else if connectionExists edgeParams edges then edges
  else edges ++ [edgeParams]

/-- The edge `onConnect` would build for a connection: the spread of the
connection plus the deterministic id `edge-${source}-${target}`. -/
def connEdge (connection : Connection) : Edge :=
  { id := "edge-" ++ connection.source ++ "-" ++ connection.target
    source := connection.source
    target := connection.target
    sourceHandle := connection.sourceHandle
    targetHandle := connection.targetHandle }

/-- `onConnect` of the `Flow` component: builds the edge with the derived
id and runs it through `addEdge` on the current edge list. -/
def onConnect (connection : Connection) (eds : List Edge) : List Edge :=
  addEdge (connEdge connection) eds

/-- `onConnect` lifted to the full state: the handler only calls
`setEdges`, so the node list is untouched. -/
def onConnectState (connection : Connection) (s : FlowState) : FlowState :=
  { s with edges := onConnect connection s.edges }

/-- `getNodeId`: returns `node-${nodeIdCounter++}`; the counter is
threaded explicitly instead of living in module scope. -/
def getNodeId (nodeIdCounter : Nat) : String × Nat :=
  ("node-" ++ toString nodeIdCounter, nodeIdCounter + 1)

/-- Initial value of the module-level `nodeIdCounter`. -/
def nodeIdCounterInit : Nat := 3

/-- The two seed nodes the `Flow` component passes to
`useState(initialNodes)`. -/
def initialNodes : List Node :=
  [ { id := "node-1"
      type := "customNode"
      position := ⟨100, 100⟩
      data := { label := "Deploy Contract"
                type := "Deploy"
                description := "Deploy smart contract to blockchain"
                status := "idle"
                config := [("network", .str "ethereum"),
                           ("gasLimit", .str "3000000")] } },
    { id := "node-2"
      type := "customNode"
      position := ⟨400, 100⟩
      data := { label := "Initialize Storage"
                type := "Constructor"
                description := "Set initial contract state"
                status := "idle"
                config := [("params", .strs ["owner", "totalSupply"])] } } ]

/-- State of a fresh editing session: `useState(initialNodes)` and
`useState([])`. -/
def initialFlowState : FlowState :=
  { nodes := initialNodes, edges := [] }

/-- `handleDelete` of `CustomNode` (with the `confirm` gate taken):
filters out the node with the given id and every edge whose source or
target equals it. -/
def handleDelete (id : String) (s : FlowState) : FlowState :=
  { nodes := s.nodes.filter fun node => node.id != id
    edges := s.edges.filter fun edge => edge.source != id && edge.target != id }

/-- `handleDuplicate` of `CustomNode`: looks the node up by id
(React Flow's `getNode`); when present, appends a copy with a generated
id, position offset by +50/+50 and label suffixed `" (Copy)"`; when
absent, does nothing. -/
def handleDuplicate (id : String) (s : FlowState) (counter : Nat) :
    FlowState × Nat :=
  match s.nodes.find? (fun node => node.id == id) with
  | none => (s, counter)
  | some currentNode =>
    let idc := getNodeId counter
    let newNode : Node :=
      { currentNode with
        id := idc.1
        position := ⟨currentNode.position.x + 50, currentNode.position.y + 50⟩
        data := { currentNode.data with
                  label := currentNode.data.label ++ " (Copy)" } }
    ({ s with nodes := s.nodes ++ [newNode] }, idc.2)

/-- The delete-key effect of the `Flow` component: when the key fired and
the selection is non-empty, drops every selected node, drops every edge
whose source or target is selected, and clears the selection. -/
def deleteKeyEffect (deleteKey : Bool) (selectedNodes : List String)
    (s : FlowState) : FlowState × List String :=
  if deleteKey && decide (selectedNodes.length > 0) then
    ({ nodes := s.nodes.filter fun node => !(selectedNodes.contains node.id)
       edges := s.edges.filter fun edge =>
         !(selectedNodes.contains edge.source) &&
         !(selectedNodes.contains edge.target) },
     [])
  else (s, selectedNodes)

/-- The palette drag payload carried through `dataTransfer`:
`{ type: 'customNode', label, nodeType }` as set by the sidebar's
`onDragStart`. -/
structure DragPayload where
  type : String
  label : String
  nodeType : String
deriving DecidableEq, Repr

/-- `onDrop` of the `Flow` component.  `dataTransfer.getData` yields the
empty string when the slot is absent; the `if (!data) return` guard is
modelled by `none` standing for an absent-or-empty transfer payload.  On a
real payload a node is appended at the projected drop position with a
fresh id, `` `${nodeType} node` `` description, `idle` status and empty
config. -/
def onDrop (payload : Option DragPayload) (position : Position)
    (s : FlowState) (counter : Nat) : FlowState × Nat :=
  match payload with
  | none => (s, counter)
  | some p =>
    let idc := getNodeId counter
    let newNode : Node :=
      { id := idc.1
        type := "customNode"
        position := position
        data := { label := p.label
                  type := p.nodeType
                  description := p.nodeType ++ " node"
                  status := "idle"
                  config := [] } }
    ({ s with nodes := s.nodes ++ [newNode] }, idc.2)

/-- The persisted `workflow` document `{nodes, edges, timestamp}`.  Each
field is optional so that malformed stored documents (missing keys, which
destructure to `undefined`) are representable. -/
structure Workflow where
  nodes : Option (List Node)
  edges : Option (List Edge)
  timestamp : Option String
deriving DecidableEq, Repr

/-- `handleSave`: writes the full current snapshot plus a timestamp to
the single `workflow` storage slot, overwriting unconditionally. -/
def handleSave (s : FlowState) (now : String) : Option Workflow :=
  some { nodes := some s.nodes, edges := some s.edges, timestamp := some now }

/-- `handleLoad`: an absent slot (`localStorage.getItem` returning
`null`) leaves the state untouched; a present document replaces the state,
with each missing collection falling back to `[]` via `savedNodes or []`. -/
def handleLoad (saved : Option Workflow) (s : FlowState) : FlowState :=
  match saved with
  | none => s
  | some w => { nodes := w.nodes.getD [], edges := w.edges.getD [] }

/-- `handleClear` (with the `confirm` gate taken): empties both
collections. -/
def handleClear (_s : FlowState) : FlowState :=
  { nodes := [], edges := [] }

/-- Invariant 2 of the spec's data model: every edge's endpoints name
nodes present in the same snapshot. -/
def edgesWellFormed (s : FlowState) : Prop :=
  ∀ e ∈ s.edges, (∃ n ∈ s.nodes, n.id = e.source) ∧
    (∃ n ∈ s.nodes, n.id = e.target)

/-- C5: for every graph, `handleSave` to the storage slot, then
`handleClear`, then `handleLoad` of that slot restores exactly the saved
node list and edge list, ids included; in particular a 2-node/1-edge graph
comes back with exactly 2 nodes and 1 edge. -/
theorem save_clear_load_roundtrip (s : FlowState) (now : String) :
    (handleLoad (handleSave s now) (handleClear s)).nodes = s.nodes ∧
    (handleLoad (handleSave s now) (handleClear s)).edges = s.edges := by
  exact ⟨rfl, rfl⟩

/-- C8: `handleLoad` of an absent storage slot leaves the state untouched,
and a present document missing its `nodes` or `edges` collection loads
with the missing collection replaced by the empty list; every case is a
total, failure-free state transition. -/
theorem load_defensive_malformed :
    (∀ s : FlowState, handleLoad none s = s) ∧
    (∀ (s : FlowState) (es : List Edge) (t : Option String),
      handleLoad (some ⟨none, some es, t⟩) s = ⟨[], es⟩) ∧
    (∀ (s : FlowState) (ns : List Node) (t : Option String),
      handleLoad (some ⟨some ns, none, t⟩) s = ⟨ns, []⟩) ∧
    (∀ (s : FlowState) (t : Option String),
      handleLoad (some ⟨none, none, t⟩) s = ⟨[], []⟩) := by
  refine ⟨fun s => rfl, fun s es t => rfl, fun s ns t => rfl, fun s t => rfl⟩

/-- C9 counterexample: a fresh session does not start with an empty
graph — `useState(initialNodes)` seeds two nodes. -/
theorem initial_graph_nonempty_cex :
    ¬(initialFlowState.nodes = [] ∧ initialFlowState.edges = []) := by
  decide

/-- C9 amended: a fresh session starts with the two seed nodes `node-1`
(`Deploy Contract`) and `node-2` (`Initialize Storage`) and zero edges,
unless populated by a Persistence Gateway load. -/
theorem initial_graph_seeded :
    initialFlowState.nodes.map Node.id = ["node-1", "node-2"] ∧
    initialFlowState.nodes.length = 2 ∧
    initialFlowState.edges = [] := by
  refine ⟨rfl, rfl, rfl⟩

/-- C10: a canvas drop whose transfer payload is absent or empty is a
no-op: `onDrop` returns without touching the node or edge collections or
the id counter. -/
theorem drop_empty_payload_noop (position : Position) (s : FlowState)
    (counter : Nat) :
    onDrop none position s counter = (s, counter) := by
  rfl

/-- A stored workflow document holding one node `node-3`, as produced by
saving in an earlier browser session. -/
def workflowWithNode3 : Workflow :=
  { nodes := some
      [ { id := "node-3"
          type := "customNode"
          position := ⟨10, 20⟩
          data := { label := "Swap Tokens"
                    type := "Swap"
                    description := "Swap node"
                    status := "idle"
                    config := [] } } ]
    edges := some []
    timestamp := some "2026-01-01T00:00:00.000Z" }

/-- C3: `handleLoad` never adjusts `nodeIdCounter`, so the generator does
not continue from the loaded graph's highest id suffix: in a fresh session
(counter at its initial value 3) that loads a stored graph containing
`node-3`, the very next palette drop creates a second node with id
`node-3`, violating node-id uniqueness. -/
theorem load_skips_counter_sync_bug :
    ((onDrop (some ⟨"customNode", "New Deploy", "Deploy"⟩) ⟨0, 0⟩
        (handleLoad (some workflowWithNode3) initialFlowState)
        nodeIdCounterInit).1.nodes.countP
      (fun n => n.id == "node-3")) = 2 := by
  decide

/-- C1: `handleDelete n` leaves no edge with source or target `n`, keeps
every other node and every edge not incident to `n`, keeps only nodes
other than `n`, and is the identity when `n` names no node of a graph
whose edges are well-formed (invariant 2). -/
theorem deleteNode_cascades (s : FlowState) (n : String) :
    (∀ e ∈ (handleDelete n s).edges, e.source ≠ n ∧ e.target ≠ n) ∧
    (∀ nd ∈ s.nodes, nd.id ≠ n → nd ∈ (handleDelete n s).nodes) ∧
    (∀ nd ∈ (handleDelete n s).nodes, nd ∈ s.nodes ∧ nd.id ≠ n) ∧
    (∀ e ∈ s.edges, e.source ≠ n → e.target ≠ n →
      e ∈ (handleDelete n s).edges) ∧
    ((∀ nd ∈ s.nodes, nd.id ≠ n) → edgesWellFormed s →
      handleDelete n s = s) := by
  refine ⟨?_, ?_, ?_, ?_, ?_⟩
  · intro e he
    simp only [handleDelete, List.mem_filter, Bool.and_eq_true,
      bne_iff_ne, ne_eq] at he
    exact ⟨he.2.1, he.2.2⟩
  · intro nd hnd hne
    simp only [handleDelete, List.mem_filter, bne_iff_ne, ne_eq]
    exact ⟨hnd, hne⟩
  · intro nd hnd
    simp only [handleDelete, List.mem_filter, bne_iff_ne, ne_eq] at hnd
    exact hnd
  · intro e he hs ht
    simp only [handleDelete, List.mem_filter, Bool.and_eq_true,
      bne_iff_ne, ne_eq]
    exact ⟨he, hs, ht⟩
  · intro hall hwf
    have h1 : s.nodes.filter (fun node => node.id != n) = s.nodes := by
      apply List.filter_eq_self.mpr
      intro nd hnd
      simpa [bne_iff_ne] using hall nd hnd
    have h2 : s.edges.filter
        (fun edge => edge.source != n && edge.target != n) = s.edges := by
      apply List.filter_eq_self.mpr
      intro e he
      obtain ⟨⟨ns, hns, hs⟩, ⟨nt, hnt, ht⟩⟩ := hwf e he
      have hsne : e.source ≠ n := by rw [← hs]; exact hall ns hns
      have htne : e.target ≠ n := by rw [← ht]; exact hall nt hnt
      simp [bne_iff_ne, hsne, htne]
    unfold handleDelete
    rw [h1, h2]

/-- Witness for C1: deleting the absent id `node-9` from the seed graph
changes nothing. -/
theorem deleteNode_cascades_witness :
    handleDelete "node-9" initialFlowState = initialFlowState :=
  (deleteNode_cascades initialFlowState "node-9").2.2.2.2 (by decide)
    (fun e he => absurd he (List.not_mem_nil e))

/-- The delete-key effect with the key fired and a non-empty selection
reduces to the two filters and an emptied selection. -/
theorem deleteKeyEffect_pos (selectedNodes : List String) (s : FlowState)
    (h : selectedNodes ≠ []) :
    deleteKeyEffect true selectedNodes s =
      ({ nodes := s.nodes.filter fun node => !(selectedNodes.contains node.id)
         edges := s.edges.filter fun edge =>
           !(selectedNodes.contains edge.source) &&
           !(selectedNodes.contains edge.target) }, []) := by
  have hlen : 0 < selectedNodes.length := List.length_pos.mpr h
  simp [deleteKeyEffect, hlen]

/-- C7: with the delete key pressed and a non-empty selection, the effect
clears the selection, keeps exactly the unselected nodes, removes every
edge whose source or target is selected, and keeps every edge touching no
selected node. -/
theorem delete_key_batch_delete (s : FlowState)
    (selectedNodes : List String) (hne : selectedNodes ≠ []) :
    ((deleteKeyEffect true selectedNodes s).2 = []) ∧
    (∀ nd ∈ (deleteKeyEffect true selectedNodes s).1.nodes,
      nd ∈ s.nodes ∧ nd.id ∉ selectedNodes) ∧
    (∀ nd ∈ s.nodes, nd.id ∉ selectedNodes →
      nd ∈ (deleteKeyEffect true selectedNodes s).1.nodes) ∧
    (∀ e ∈ (deleteKeyEffect true selectedNodes s).1.edges,
      e.source ∉ selectedNodes ∧ e.target ∉ selectedNodes) ∧
    (∀ e ∈ s.edges, e.source ∉ selectedNodes → e.target ∉ selectedNodes →
      e ∈ (deleteKeyEffect true selectedNodes s).1.edges) := by
  rw [deleteKeyEffect_pos selectedNodes s hne]
  refine ⟨rfl, ?_, ?_, ?_, ?_⟩
  · intro nd hnd
    simp [List.mem_filter] at hnd
    exact hnd
  · intro nd hnd hnsel
    simp [List.mem_filter]
    exact ⟨hnd, hnsel⟩
  · intro e he
    simp [List.mem_filter] at he
    exact ⟨he.2.1, he.2.2⟩
  · intro e he hs ht
    simp [List.mem_filter]
    exact ⟨he, hs, ht⟩

/-- An edge between the two seed nodes, as `onConnect` would create it. -/
def edgeAB : Edge :=
  ⟨"edge-node-1-node-2", "node-1", "node-2", none, none⟩

/-- A self-loop on the second seed node. -/
def edgeBB : Edge :=
  ⟨"edge-node-2-node-2", "node-2", "node-2", none, none⟩

/-- The seed graph with two edges, used to exercise the batch delete. -/
def exampleState : FlowState :=
  { nodes := initialNodes, edges := [edgeAB, edgeBB] }

/-- Witness for C7: deleting the selection `["node-1"]` from the example
graph clears the selection and keeps the self-loop on `node-2`. -/
theorem delete_key_batch_delete_witness :
    (deleteKeyEffect true ["node-1"] exampleState).2 = [] ∧
    edgeBB ∈ (deleteKeyEffect true ["node-1"] exampleState).1.edges := by
  have h := delete_key_batch_delete exampleState ["node-1"] (by decide)
  exact ⟨h.1, h.2.2.2.2 edgeBB (by decide) (by decide) (by decide)⟩

/-- C4 counterexample: on the empty graph, whose node list contains
neither `node-1` nor `node-2`, `onConnect` still creates the edge instead
of failing with `NotFound`. -/
theorem connect_missing_endpoint_cex :
    (FlowState.nodes ⟨[], []⟩ = []) ∧
    (onConnectState ⟨"node-1", "node-2", none, none⟩ ⟨[], []⟩).edges =
      [⟨"edge-node-1-node-2", "node-1", "node-2", none, none⟩] := by
  exact ⟨rfl, rfl⟩

/-- C4 amended: `onConnect` performs no endpoint-presence check at all —
for every graph and non-empty ids `a`, `b`, when no matching connection
already exists it appends the derived edge, whether or not `a` or `b` name
nodes of the graph, and it never touches the node list. -/
theorem connect_ignores_endpoints (s : FlowState) (a b : String)
    (ha : a ≠ "") (hb : b ≠ "")
    (hnew : connectionExists (connEdge ⟨a, b, none, none⟩) s.edges = false) :
    (onConnectState ⟨a, b, none, none⟩ s).nodes = s.nodes ∧
    (onConnectState ⟨a, b, none, none⟩ s).edges =
      s.edges ++ [connEdge ⟨a, b, none, none⟩] := by
  refine ⟨rfl, ?_⟩
  have hga : ((connEdge ⟨a, b, none, none⟩).source == "") = false := by
    simpa [connEdge] using ha
  have hgb : ((connEdge ⟨a, b, none, none⟩).target == "") = false := by
    simpa [connEdge] using hb
  simp [onConnectState, onConnect, addEdge, hga, hgb, hnew]

/-- Witness for C4: connecting two ids that name no node of the empty
graph appends the derived edge and leaves the node list empty. -/
theorem connect_ignores_endpoints_witness :
    (onConnectState ⟨"ghost-a", "ghost-b", none, none⟩ ⟨[], []⟩).nodes = [] ∧
    (onConnectState ⟨"ghost-a", "ghost-b", none, none⟩ ⟨[], []⟩).edges =
      [connEdge ⟨"ghost-a", "ghost-b", none, none⟩] :=
  connect_ignores_endpoints ⟨[], []⟩ "ghost-a" "ghost-b" (by decide)
    (by decide) (by decide)

/-- A node with id `node-3`, as a stored graph saved by an earlier browser
session would contain. -/
def loadedNode3 : Node :=
  { id := "node-3"
    type := "customNode"
    position := ⟨0, 0⟩
    data := { label := "Stake Tokens"
              type := "Stake"
              description := "Stake node"
              status := "idle"
              config := [] } }

/-- C6 counterexample: in a session whose counter stands at 3 (its initial
value) and whose graph holds a loaded node `node-3`, duplicating `node-3`
appends a node whose id equals the existing one — the new id is not
distinct from every existing node id. -/
theorem duplicate_id_collision_cex :
    ((handleDuplicate "node-3" ⟨[loadedNode3], []⟩ 3).1.nodes.map Node.id) =
      ["node-3", "node-3"] := by
  decide

/-- C6 amended: duplicating an absent id is a no-op, and duplicating a
present node appends exactly one new node that copies `type`,
`description`, `status` and `config`, offsets the position by +50/+50 and
suffixes the label with `" (Copy)"`, creating no edges; its id is distinct
from every existing node id provided no existing node already bears the id
the generator produces next (which holds whenever all ids in the graph
came from the seed nodes and the generator, but can fail after a load). -/
theorem duplicateNode_spec (s : FlowState) (counter : Nat) (n : String) :
    (s.nodes.find? (fun nd => nd.id == n) = none →
      handleDuplicate n s counter = (s, counter)) ∧
    (∀ currentNode, s.nodes.find? (fun nd => nd.id == n) = some currentNode →
      (∀ nd ∈ s.nodes, nd.id ≠ (getNodeId counter).1) →
      ∃ newNode,
        (handleDuplicate n s counter).1.nodes = s.nodes ++ [newNode] ∧
        (∀ nd ∈ s.nodes, nd.id ≠ newNode.id) ∧
        newNode.type = currentNode.type ∧
        newNode.data.type = currentNode.data.type ∧
        newNode.data.description = currentNode.data.description ∧
        newNode.data.status = currentNode.data.status ∧
        newNode.data.config = currentNode.data.config ∧
        newNode.position =
          ⟨currentNode.position.x + 50, currentNode.position.y + 50⟩ ∧
        newNode.data.label = currentNode.data.label ++ " (Copy)" ∧
        (handleDuplicate n s counter).1.edges = s.edges) := by
  constructor
  · intro h
    unfold handleDuplicate
    rw [h]
  · intro currentNode h hfresh
    unfold handleDuplicate
    rw [h]
    exact ⟨_, rfl, fun nd hnd => hfresh nd hnd, rfl, rfl, rfl, rfl, rfl,
      rfl, rfl, rfl⟩

/-- Witness for C6: duplicating the seed node `node-1` with the counter at
its initial value appends exactly one node and creates no edges. -/
theorem duplicateNode_spec_witness :
    (handleDuplicate "node-1" initialFlowState nodeIdCounterInit).1.nodes.length = 3 ∧
    (handleDuplicate "node-1" initialFlowState nodeIdCounterInit).1.edges = [] := by
  obtain ⟨newNode, h1, -, -, -, -, -, -, -, -, h10⟩ :=
    (duplicateNode_spec initialFlowState nodeIdCounterInit "node-1").2 _ rfl
      (by decide)
  constructor
  · rw [h1, List.length_append]
    rfl
  · exact h10

/-- `connectionExists` distributes over list append. -/
theorem connectionExists_append (e : Edge) (l₁ l₂ : List Edge) :
    connectionExists e (l₁ ++ l₂) =
      (connectionExists e l₁ || connectionExists e l₂) := by
  simp [connectionExists, List.any_append]

/-- An edge just appended always matches itself. -/
theorem connectionExists_self (e : Edge) (l : List Edge) :
    connectionExists e (l ++ [e]) = true := by
  rw [connectionExists_append]
  have h : connectionExists e [e] = true := by
    simp [connectionExists]
  simp [h]

/-- C2: on a graph containing nodes `a` and `b` whose edge list respects
the spec's invariants (any existing `a → b` edge carries the derived id
and null handles, and there is at most one such edge), connecting `a` to
`b` twice leaves exactly one `a → b` edge, every `a → b` edge carries the
derived id `edge-a-b`, and the second call changes nothing. -/
theorem connect_twice_one_edge (s : FlowState) (a b : String)
    (ha : a ≠ "") (hb : b ≠ "")
    (hna : ∃ nd ∈ s.nodes, nd.id = a) (hnb : ∃ nd ∈ s.nodes, nd.id = b)
    (hWF : ∀ e ∈ s.edges, e.source = a → e.target = b →
      e.id = "edge-" ++ a ++ "-" ++ b ∧ e.sourceHandle = none ∧
        e.targetHandle = none)
    (hdedup : s.edges.countP
      (fun e => e.source == a && e.target == b) ≤ 1) :
    ((onConnect ⟨a, b, none, none⟩
        (onConnect ⟨a, b, none, none⟩ s.edges)).countP
      (fun e => e.source == a && e.target == b) = 1) ∧
    (∀ e ∈ onConnect ⟨a, b, none, none⟩
        (onConnect ⟨a, b, none, none⟩ s.edges),
      e.source = a → e.target = b → e.id = "edge-" ++ a ++ "-" ++ b) ∧
    (onConnect ⟨a, b, none, none⟩ (onConnect ⟨a, b, none, none⟩ s.edges) =
      onConnect ⟨a, b, none, none⟩ s.edges) := by
  have hga : ((connEdge ⟨a, b, none, none⟩).source == "") = false := by
    simpa [connEdge] using ha
  have hgb : ((connEdge ⟨a, b, none, none⟩).target == "") = false := by
    simpa [connEdge] using hb
  cases h1 : connectionExists (connEdge ⟨a, b, none, none⟩) s.edges with
  | true =>
    have e1 : onConnect ⟨a, b, none, none⟩ s.edges = s.edges := by
      simp [onConnect, addEdge, hga, hgb, h1]
    simp only [e1]
    refine ⟨?_, fun e he hs ht => (hWF e he hs ht).1, trivial⟩
    have hex : 0 < s.edges.countP
        (fun e => e.source == a && e.target == b) := by
      rw [List.countP_pos_iff]
      simp only [connectionExists, List.any_eq_true, connEdge] at h1
      obtain ⟨el, hel, hprop⟩ := h1
      refine ⟨el, hel, ?_⟩
      simp only [Bool.and_eq_true] at hprop ⊢
      exact ⟨hprop.1.1.1, hprop.1.1.2⟩
    exact Nat.le_antisymm hdedup hex
  | false =>
    have e1 : onConnect ⟨a, b, none, none⟩ s.edges =
        s.edges ++ [connEdge ⟨a, b, none, none⟩] := by
      simp [onConnect, addEdge, hga, hgb, h1]
    have h2 : connectionExists (connEdge ⟨a, b, none, none⟩)
        (s.edges ++ [connEdge ⟨a, b, none, none⟩]) = true :=
      connectionExists_self _ _
    have e2 : onConnect ⟨a, b, none, none⟩
        (s.edges ++ [connEdge ⟨a, b, none, none⟩]) =
        s.edges ++ [connEdge ⟨a, b, none, none⟩] := by
      simp [onConnect, addEdge, hga, hgb, h2]
    rw [e1, e2]
    have hzero : s.edges.countP
        (fun e => e.source == a && e.target == b) = 0 := by
      rw [List.countP_eq_zero]
      intro e he hpe
      simp only [Bool.and_eq_true, beq_iff_eq] at hpe
      obtain ⟨hid, hsh, hth⟩ := hWF e he hpe.1 hpe.2
      have hcontra : connectionExists (connEdge ⟨a, b, none, none⟩)
          s.edges = true := by
        simp only [connectionExists, List.any_eq_true]
        refine ⟨e, he, ?_⟩
        simp [connEdge, optFalsy, hpe.1, hpe.2, hsh, hth]
      rw [h1] at hcontra
      exact Bool.false_ne_true hcontra
    refine ⟨?_, ?_, rfl⟩
    · rw [List.countP_append, hzero]
      simp [List.countP_cons, connEdge]
    · intro e he hs ht
      rcases List.mem_append.mp he with h | h
      · exact (hWF e h hs ht).1
      · simp only [List.mem_singleton] at h
        subst h
        rfl

/-- Witness for C2: connecting the two seed nodes twice from the fresh
session leaves exactly one `node-1 → node-2` edge. -/
theorem connect_twice_one_edge_witness :
    ((onConnect ⟨"node-1", "node-2", none, none⟩
        (onConnect ⟨"node-1", "node-2", none, none⟩
          initialFlowState.edges)).countP
      (fun e => e.source == "node-1" && e.target == "node-2")) = 1 :=
  (connect_twice_one_edge initialFlowState "node-1" "node-2" (by decide)
    (by decide) (by decide) (by decide)
    (fun e he => absurd he (List.not_mem_nil e)) (by decide)).1
